import Mathlib

/-!
Verification development for the invoice-PDF-to-CSV pipeline in `main.py`.

The shallow embedding below translates the pure core of the program:
  - the regular-expression searches of `parse_info`
    (date pattern `\d{4}[slash dash]\d{1,2}[slash dash]\d{1,2}` and
     amount pattern `[0-9]{1,3}(?:,[0-9]{3})*`, both with Python's
     leftmost-search, greedy-quantifier semantics; `\d` is modelled as
     the ASCII digits, which is what the claims and spec examples use),
  - the first-non-blank-line counterparty heuristic,
  - `build_csv_row` over the fixed `CSV_COLUMNS` schema,
  - `extract_text_from_pdf` with its swallow-all exception handler,
    where the behaviour of the external PDF reader is an explicit
    parameter (`ReaderOutcome`),
  - the per-document and per-batch control flow of `process_pdfs`,
    where rasterization success and the OCR result are explicit
    parameters (`DocSpec`); an uncaught rasterization exception is
    modelled by cutting the batch short and raising an abort flag.
-/

namespace InvoicePipeline

/-- Character class `[slash dash]` of the date pattern. -/
def isSep (c : Char) : Bool := c = '/' || c = '-'

/-- Greedy match of the piece `\d{1,2}[slash dash]` (month plus separator) at the
head of the input.  Python tries two digits first and falls back to one;
the two alternatives are mutually exclusive because a character cannot be
both a digit and a separator.  Returns (consumed, remaining input). -/
def matchMonthSep : List Char → Option (List Char × List Char)
  | a :: b :: c :: rest =>
    if a.isDigit && b.isDigit && isSep c then some ([a, b, c], rest)
    else if a.isDigit && isSep b then some ([a, b], c :: rest)
    else none
  | [a, b] => if a.isDigit && isSep b then some ([a, b], []) else none
  | _ => none

/-- Greedy match of the trailing `\d{1,2}` (day) at the head of the input.
Nothing follows it in the pattern, so greediness needs no backtracking. -/
def matchDayEnd : List Char → Option (List Char × List Char)
  | a :: b :: rest =>
    if a.isDigit && b.isDigit then some ([a, b], rest)
    else if a.isDigit then some ([a], b :: rest)
    else none
  | [a] => if a.isDigit then some ([a], []) else none
  | _ => none

/-- Match of the full date pattern `\d{4}[slash dash]\d{1,2}[slash dash]\d{1,2}` anchored at
the head of the input.  Returns (matched text, remaining input). -/
def matchDateAt : List Char → Option (List Char × List Char)
  | y1 :: y2 :: y3 :: y4 :: s :: rest =>
    if y1.isDigit && y2.isDigit && y3.isDigit && y4.isDigit && isSep s then
      match matchMonthSep rest with
      | some (m, rest2) =>
        match matchDayEnd rest2 with
        | some (d, rest3) => some (y1 :: y2 :: y3 :: y4 :: s :: (m ++ d), rest3)
        | none => none
      | none => none
    else none
  | _ => none

/-- Greedy match of the piece `(?:,[0-9]{3})*` at the head of the input:
consume as many complete comma-plus-three-digit groups as possible.
Always succeeds (possibly with zero groups). -/
def matchGroups : List Char → List Char × List Char
  | c0 :: a :: b :: c :: rest =>
    if c0 = ',' && a.isDigit && b.isDigit && c.isDigit then
      let (g, r) := matchGroups rest
      (c0 :: a :: b :: c :: g, r)
    else ([], c0 :: a :: b :: c :: rest)
  | cs => ([], cs)

/-- Match of the amount pattern `[0-9]{1,3}(?:,[0-9]{3})*` anchored at the
head of the input: one to three leading digits taken greedily, then the
comma groups.  The star can always match zero groups, so the greedy digit
count is final (no backtracking). -/
def matchAmountAt : List Char → Option (List Char × List Char)
  | [] => none
  | a :: rest =>
    if a.isDigit then
      match rest with
      | b :: rest2 =>
        if b.isDigit then
          match rest2 with
          | c :: rest3 =>
            if c.isDigit then
              let (g, r) := matchGroups rest3
              some (a :: b :: c :: g, r)
            else
              let (g, r) := matchGroups (c :: rest3)
              some (a :: b :: g, r)
          | [] => some ([a, b], [])
        else
          let (g, r) := matchGroups (b :: rest2)
          some (a :: g, r)
      | [] => some ([a], [])
    else none

/-- Python `re.search`: try to match at each position from the left and
return the first (leftmost) match. -/
def reSearch (m : List Char → Option (List Char × List Char)) :
    List Char → Option (List Char)
  | [] => (m []).map Prod.fst
  | c :: rest =>
    match m (c :: rest) with
    | some p => some p.fst
    | none => reSearch m rest

/-- Python `str.strip()` on a character list (Lean's whitespace class covers
the whitespace characters the spec and claims exercise). -/
def pyStrip (cs : List Char) : List Char :=
  ((cs.dropWhile Char.isWhitespace).reverse.dropWhile Char.isWhitespace).reverse

/-- Python `str.strip()` on strings. -/
def pyStripS (s : String) : String := String.mk (pyStrip s.data)

/-- The counterparty-name heuristic of `parse_info`: split into lines,
strip each, and take the first non-empty one (empty string when none).
The pipeline only ever feeds newline-separated text, so line splitting is
modelled on the newline character. -/
def firstPartnerName (text : String) : String :=
  (((text.split (fun c => c = '\n')).map pyStripS).find? (fun l => l ≠ "")).getD ""

/-- Embedding of `parse_info`: (date, amount, partner name).  The amount
match has its commas removed (Python `replace(",", "")`). -/
def parse_info (text : String) : String × String × String :=
  let date :=
    match reSearch matchDateAt text.data with
    | some r => String.mk r
    | none => ""
  let amount :=
    match reSearch matchAmountAt text.data with
    | some r => String.mk (r.filter (fun c => c ≠ ','))
    | none => ""
  (date, amount, firstPartnerName text)

/-- The 44 column headers of the output CSV, verbatim from the source. -/
def CSV_COLUMNS : List String := [
  "月日", "伝票番号", "証憑番号", "借方科目コード", "借方科目名", "借方補助コード",
  "借方口座名", "借方部門コード", "借方部門名", "借方課税区分", "借方事業区分",
  "借方消費税額自動計算か否か", "借方軽減税率か否か", "借方税率", "借方控除割合",
  "借方取引金額", "借方消費税等", "借方税抜き金額", "貸方科目コード", "貸方科目名",
  "貸方補助コード", "貸方口座名", "貸方部門コード", "貸方部門名", "貸方課税区分",
  "貸方事業区分", "貸方消費税額自動計算か否か", "貸方軽減税率か否か", "貸方税率",
  "貸方控除割合", "貸方取引金額", "貸方消費税等", "貸方税抜き金額", "取引先コード",
  "取引先名", "取引先の事業者登録番号", "元帳摘要", "実際の仕入れ年月日表示区分",
  "実際の仕入れ年月日１", "実際の仕入れ年月日２", "収支区分コード", "収支区分名",
  "内訳区分コード", "内訳区分名"]

/-- Python `date.replace("-", "/")`: a single-character replacement, i.e. a
character map over the string. -/
def pyReplaceDash (s : String) : String :=
  String.mk (s.data.map (fun c => if c = '-' then '/' else c))

/-- Embedding of `build_csv_row`: a row of empty cells, with index 0 set to
the dash-normalized date (Python conditional keeps the empty string when
the date is empty), index 15 set to the amount and index 33 set to the
partner, exactly as the source assigns them. -/
def build_csv_row (date amount partner : String) : List String :=
  let row := List.replicate CSV_COLUMNS.length ""
  let row := row.set 0 (if date = "" then "" else pyReplaceDash date)
  let row := row.set 15 amount
  row.set 33 partner

/-- Outcome of one `page.extract_text()` call inside the pdfplumber loop.
`ok t` is a successful call returning `t` (the empty string also stands
for Python `None`, which the source treats identically via truthiness);
`err` is a call that raises. -/
inductive PageRead where
  | ok (t : String)
  | err
deriving DecidableEq

/-- Behaviour of the external PDF reader on one document: opening the file
either fails outright or yields the per-page extraction outcomes in page
order. -/
inductive ReaderOutcome where
  | openFail
  | pages (ps : List PageRead)
deriving DecidableEq

/-- The accumulation loop of `extract_text_from_pdf`: append each truthy
page text plus a newline; an exception ends the loop and the handler
returns the text accumulated so far. -/
def extractLoop (acc : String) : List PageRead → String
  | [] => acc
  | .ok t :: rest => if t = "" then extractLoop acc rest else extractLoop (acc ++ t ++ "\n") rest
  | .err :: _ => acc

/-- Embedding of `extract_text_from_pdf`: the try/except wraps both the
open call and the page loop, and always returns the accumulated text. -/
def extract_text_from_pdf : ReaderOutcome → String
  | .openFail => ""
  | .pages ps => extractLoop "" ps

/-- The pipeline-relevant behaviour of one document: what the PDF reader
does on it, whether `convert_from_path` succeeds, and what the OCR stage
would return for its page images. -/
structure DocSpec where
  reader : ReaderOutcome
  rasterOk : Bool
  ocrText : String
deriving DecidableEq

/-- Per-document outcome: a CSV row, or an uncaught rasterization
exception. -/
inductive DocOutcome where
  | row (r : List String)
  | rasterError
deriving DecidableEq

/-- Parse a text and build its CSV row (the last two stages of the loop
body of `process_pdfs`). -/
def build_row_from_text (text : String) : List String :=
  let p := parse_info text
  build_csv_row p.1 p.2.1 p.2.2

/-- The loop body of `process_pdfs` for one document: direct extraction,
then OCR fallback exactly when the stripped text is empty; rasterization
failure raises (no handler in the source).  The boolean records whether
the OCR fallback path was entered. -/
def process_document (d : DocSpec) : Bool × DocOutcome :=
  let text := extract_text_from_pdf d.reader
  if pyStripS text = "" then
    if d.rasterOk then (true, .row (build_row_from_text d.ocrText))
    else (true, .rasterError)
  else (false, .row (build_row_from_text text))

/-- The document loop of `process_pdfs`: rows are written one per document
in input order; an uncaught rasterization exception propagates, so the
loop stops — rows already written stay in the file (flushed when the
file is closed) and the flag records that the batch aborted. -/
def process_batch : List DocSpec → List (List String) × Bool
  | [] => ([], false)
  | d :: rest =>
    match process_document d with
    | (_, .row r) =>
      let p := process_batch rest
      (r :: p.1, p.2)
    | (_, .rasterError) => ([], true)

/-- Spec wording for the amount grammar, group part: zero or more groups of
exactly 3 digits, each preceded by a comma. -/
def specGroups : List Char → Bool
  | [] => true
  | c0 :: a :: b :: c :: rest => c0 = ',' && a.isDigit && b.isDigit && c.isDigit && specGroups rest
  | _ => false

/-- Spec wording for the amount grammar: a grouped-digit numeral, 1 to 3
leading digits followed by zero or more groups of exactly 3 digits each
preceded by a comma. -/
def specAmount (r : List Char) : Bool :=
  (match r with
   | a :: rest => a.isDigit && specGroups rest
   | _ => false) ||
  (match r with
   | a :: b :: rest => a.isDigit && b.isDigit && specGroups rest
   | _ => false) ||
  (match r with
   | a :: b :: c :: rest => a.isDigit && b.isDigit && c.isDigit && specGroups rest
   | _ => false)

/-- Spec wording for the date grammar, day part: one or two digits ending
the match. -/
def specDayTail : List Char → Bool
  | [d] => d.isDigit
  | [d1, d2] => d1.isDigit && d2.isDigit
  | _ => false

/-- Spec wording for the date grammar, month-and-day part: M(M), a
separator, then D(D). -/
def specMonthTail (r : List Char) : Bool :=
  (match r with
   | m :: s :: rest => m.isDigit && isSep s && specDayTail rest
   | _ => false) ||
  (match r with
   | m1 :: m2 :: s :: rest => m1.isDigit && m2.isDigit && isSep s && specDayTail rest
   | _ => false)

/-- Spec wording for the date grammar: YYYY, a separator in {slash, dash},
M(M), a separator, D(D); no calendar validation. -/
def specDate (r : List Char) : Bool :=
  match r with
  | y1 :: y2 :: y3 :: y4 :: s :: rest =>
    y1.isDigit && y2.isDigit && y3.isDigit && y4.isDigit && isSep s && specMonthTail rest
  | _ => false

/-- Decidable check: some prefix of the input is a date-grammar match, i.e.
a date-grammar substring occurs at this position. -/
def specDateAt (cs : List Char) : Bool :=
  (List.range (cs.length + 1)).any (fun k => specDate (cs.take k))

/-- Decidable check: some prefix of the input is an amount-grammar match,
i.e. a grouped-digit numeral occurs at this position. -/
def specAmountAt (cs : List Char) : Bool :=
  (List.range (cs.length + 1)).any (fun k => specAmount (cs.take k))

/-- A separator character is not a digit. -/
theorem isSep_not_digit {c : Char} (h : isSep c = true) : c.isDigit = false := by
  simp only [isSep, Bool.or_eq_true, decide_eq_true_eq] at h
  rcases h with h | h <;> subst h <;> decide

/-- If the matcher fails at every position, the search fails. -/
theorem reSearch_eq_none_of (m : List Char → Option (List Char × List Char)) :
    ∀ cs : List Char, (∀ i, m (cs.drop i) = none) → reSearch m cs = none := by
  intro cs
  induction cs with
  | nil =>
    intro h
    have h0 := h 0
    simp only [List.drop_nil] at h0
    simp [reSearch, h0]
  | cons c rest ih =>
    intro h
    have h0 := h 0
    simp only [List.drop_zero] at h0
    have hrest : ∀ i, m (rest.drop i) = none := by
      intro i
      simpa using h (i + 1)
    simp [reSearch, h0, ih hrest]

/-- If the matcher fails strictly before position i and succeeds at i, the
search returns the match found at i. -/
theorem reSearch_eq_some_of (m : List Char → Option (List Char × List Char)) :
    ∀ (cs : List Char) (i : Nat) (p : List Char × List Char),
      (∀ j, j < i → m (cs.drop j) = none) → m (cs.drop i) = some p →
      reSearch m cs = some p.1 := by
  intro cs
  induction cs with
  | nil =>
    intro i p _ hi
    simp only [List.drop_nil] at hi
    simp [reSearch, hi]
  | cons c rest ih =>
    intro i p hj hi
    cases i with
    | zero =>
      simp only [List.drop_zero] at hi
      simp [reSearch, hi]
    | succ n =>
      have h0 : m (c :: rest) = none := by simpa using hj 0 (Nat.succ_pos n)
      have hj' : ∀ j, j < n → m (rest.drop j) = none := by
        intro j hjn
        simpa using hj (j + 1) (Nat.succ_lt_succ hjn)
      have hi' : m (rest.drop n) = some p := by simpa using hi
      simp [reSearch, h0, ih n p hj' hi']

/-- The group matcher consumes a prefix of its input. -/
theorem matchGroups_append : ∀ cs : List Char, (matchGroups cs).1 ++ (matchGroups cs).2 = cs
  | [] => by simp [matchGroups]
  | [a] => by simp [matchGroups]
  | [a, b] => by simp [matchGroups]
  | [a, b, c] => by simp [matchGroups]
  | c0 :: a :: b :: c :: rest => by
    have ih := matchGroups_append rest
    rcases hmg : matchGroups rest with ⟨g, r⟩
    rw [hmg] at ih
    simp only [matchGroups, hmg]
    split_ifs with h1
    · simpa using ih
    · simp

/-- The group matcher returns a string of complete comma groups. -/
theorem matchGroups_spec : ∀ cs : List Char, specGroups (matchGroups cs).1 = true
  | [] => by simp [matchGroups, specGroups]
  | [a] => by simp [matchGroups, specGroups]
  | [a, b] => by simp [matchGroups, specGroups]
  | [a, b, c] => by simp [matchGroups, specGroups]
  | c0 :: a :: b :: c :: rest => by
    have ih := matchGroups_spec rest
    rcases hmg : matchGroups rest with ⟨g, r⟩
    rw [hmg] at ih
    simp only [matchGroups, hmg]
    split_ifs with h1
    · simp only [Bool.and_eq_true, decide_eq_true_eq] at h1
      simp [specGroups, h1.1.1.1, h1.1.1.2, h1.1.2, h1.2, ih]
    · simp [specGroups]

/-- A successful month-plus-separator match consumes a prefix of one of the
two possible shapes. -/
theorem matchMonthSep_shape {cs m r : List Char}
    (h : matchMonthSep cs = some (m, r)) :
    cs = m ++ r ∧
    ((∃ a s, m = [a, s] ∧ a.isDigit = true ∧ isSep s = true) ∨
     (∃ a b s, m = [a, b, s] ∧ a.isDigit = true ∧ b.isDigit = true ∧ isSep s = true)) := by
  rcases cs with _ | ⟨a, _ | ⟨b, _ | ⟨c, rest⟩⟩⟩
  · simp [matchMonthSep] at h
  · simp [matchMonthSep] at h
  · simp only [matchMonthSep] at h
    split_ifs at h with h1
    · simp only [Option.some.injEq, Prod.mk.injEq] at h
      obtain ⟨hm, hr⟩ := h
      subst hm; subst hr
      simp only [Bool.and_eq_true] at h1
      exact ⟨by simp, Or.inl ⟨a, b, rfl, h1.1, h1.2⟩⟩
  · simp only [matchMonthSep] at h
    split_ifs at h with h1 h2
    · simp only [Option.some.injEq, Prod.mk.injEq] at h
      obtain ⟨hm, hr⟩ := h
      subst hm; subst hr
      simp only [Bool.and_eq_true] at h1
      exact ⟨by simp, Or.inr ⟨a, b, c, rfl, h1.1.1, h1.1.2, h1.2⟩⟩
    · simp only [Option.some.injEq, Prod.mk.injEq] at h
      obtain ⟨hm, hr⟩ := h
      subst hm; subst hr
      simp only [Bool.and_eq_true] at h2
      exact ⟨by simp, Or.inl ⟨a, b, rfl, h2.1, h2.2⟩⟩

/-- A successful trailing-day match consumes a prefix of one or two
digits. -/
theorem matchDayEnd_shape {cs m r : List Char}
    (h : matchDayEnd cs = some (m, r)) :
    cs = m ++ r ∧
    ((∃ d, m = [d] ∧ d.isDigit = true) ∨
     (∃ d1 d2, m = [d1, d2] ∧ d1.isDigit = true ∧ d2.isDigit = true)) := by
  rcases cs with _ | ⟨a, _ | ⟨b, rest⟩⟩
  · simp [matchDayEnd] at h
  · simp only [matchDayEnd] at h
    split_ifs at h with h1
    · simp only [Option.some.injEq, Prod.mk.injEq] at h
      obtain ⟨hm, hr⟩ := h
      subst hm; subst hr
      exact ⟨by simp, Or.inl ⟨a, rfl, h1⟩⟩
  · simp only [matchDayEnd] at h
    split_ifs at h with h1 h2
    · simp only [Option.some.injEq, Prod.mk.injEq] at h
      obtain ⟨hm, hr⟩ := h
      subst hm; subst hr
      simp only [Bool.and_eq_true] at h1
      exact ⟨by simp, Or.inr ⟨a, b, rfl, h1.1, h1.2⟩⟩
    · simp only [Option.some.injEq, Prod.mk.injEq] at h
      obtain ⟨hm, hr⟩ := h
      subst hm; subst hr
      exact ⟨by simp, Or.inl ⟨a, rfl, h2⟩⟩

/-- Gluing the two matched pieces yields a month-and-day tail in the sense
of the spec grammar. -/
theorem specMonthTail_of {m d : List Char}
    (hm : (∃ a s, m = [a, s] ∧ a.isDigit = true ∧ isSep s = true) ∨
          (∃ a b s, m = [a, b, s] ∧ a.isDigit = true ∧ b.isDigit = true ∧ isSep s = true))
    (hd : (∃ x, d = [x] ∧ x.isDigit = true) ∨
          (∃ x y, d = [x, y] ∧ x.isDigit = true ∧ y.isDigit = true)) :
    specMonthTail (m ++ d) = true := by
  rcases hm with ⟨a, s, rfl, ha, hs⟩ | ⟨a, b, s, rfl, ha, hb, hs⟩ <;>
    rcases hd with ⟨x, rfl, hx⟩ | ⟨x, y, rfl, hx, hy⟩ <;>
      simp [specMonthTail, specDayTail, *]

/-- A successful date match consumes a prefix that is a date-grammar match
in the sense of the spec. -/
theorem matchDateAt_spec {cs r rest : List Char}
    (h : matchDateAt cs = some (r, rest)) :
    cs = r ++ rest ∧ specDate r = true := by
  rcases cs with _ | ⟨y1, _ | ⟨y2, _ | ⟨y3, _ | ⟨y4, _ | ⟨s, tail⟩⟩⟩⟩⟩
  · simp [matchDateAt] at h
  · simp [matchDateAt] at h
  · simp [matchDateAt] at h
  · simp [matchDateAt] at h
  · simp [matchDateAt] at h
  · simp only [matchDateAt] at h
    split_ifs at h with h1
    · split at h
      next m rest2 hm =>
        split at h
        next d rest3 hd =>
          simp only [Option.some.injEq, Prod.mk.injEq] at h
          obtain ⟨hr, hrest⟩ := h
          subst hr; subst hrest
          obtain ⟨happ1, hshape1⟩ := matchMonthSep_shape hm
          obtain ⟨happ2, hshape2⟩ := matchDayEnd_shape hd
          subst happ1; subst happ2
          constructor
          · simp
          · simp only [Bool.and_eq_true] at h1
            simp [specDate, h1.1.1.1.1, h1.1.1.1.2, h1.1.1.2, h1.1.2, h1.2,
              specMonthTail_of hshape1 hshape2]
        next hd => simp at h
      next hm => simp at h

/-- Inversion of the spec-side day grammar. -/
theorem specDayTail_shape {l : List Char} (h : specDayTail l = true) :
    (∃ d, l = [d] ∧ d.isDigit = true) ∨
    (∃ d1 d2, l = [d1, d2] ∧ d1.isDigit = true ∧ d2.isDigit = true) := by
  rcases l with _ | ⟨a, _ | ⟨b, _ | ⟨c, rest⟩⟩⟩
  · simp [specDayTail] at h
  · exact Or.inl ⟨a, rfl, by simpa [specDayTail] using h⟩
  · simp only [specDayTail, Bool.and_eq_true] at h
    exact Or.inr ⟨a, b, rfl, h.1, h.2⟩
  · simp [specDayTail] at h

/-- The trailing-day matcher succeeds on any input starting with a digit. -/
theorem matchDayEnd_isSome {x : Char} (hx : x.isDigit = true) (xs : List Char) :
    (matchDayEnd (x :: xs)).isSome = true := by
  rcases xs with _ | ⟨b, rest⟩
  · simp [matchDayEnd, hx]
  · simp only [matchDayEnd]
    split_ifs with h1
    · simp
    · simp

/-- If a prefix of the input is a date-grammar match, the date matcher
succeeds on the input. -/
theorem matchDateAt_isSome_of_spec {r : List Char} (h : specDate r = true)
    (rest : List Char) : (matchDateAt (r ++ rest)).isSome = true := by
  rcases r with _ | ⟨y1, _ | ⟨y2, _ | ⟨y3, _ | ⟨y4, _ | ⟨s, tail⟩⟩⟩⟩⟩
  · simp [specDate] at h
  · simp [specDate] at h
  · simp [specDate] at h
  · simp [specDate] at h
  · simp [specDate] at h
  · simp only [specDate, Bool.and_eq_true] at h
    obtain ⟨⟨⟨⟨⟨h1, h2⟩, h3⟩, h4⟩, h5⟩, h6⟩ := h
    simp only [specMonthTail, Bool.or_eq_true] at h6
    have hsep : ∀ c : Char, isSep c = true → c.isDigit = false := fun c => isSep_not_digit
    rcases h6 with h6 | h6
    · rcases tail with _ | ⟨mc, _ | ⟨s2, dtail⟩⟩
      · simp at h6
      · simp at h6
      · simp only [Bool.and_eq_true] at h6
        obtain ⟨⟨hmc, hs2⟩, hdt⟩ := h6
        rcases specDayTail_shape hdt with ⟨d1, rfl, hd1⟩ | ⟨d1, d2, rfl, hd1, hd2⟩
        · simp only [List.cons_append, List.append_assoc, List.singleton_append,
            matchDateAt, h1, h2, h3, h4, h5, Bool.and_self, if_true]
          simp only [matchMonthSep, hmc, hs2, isSep_not_digit hs2, Bool.and_false,
            Bool.false_and, Bool.and_true, Bool.true_and, if_false, if_true,
            Bool.and_self]
          rcases hde : matchDayEnd (d1 :: rest) with _ | ⟨d, r3⟩
          · have := matchDayEnd_isSome hd1 rest
            rw [hde] at this
            simp at this
          · simp [hde]
        · simp only [List.cons_append, List.append_assoc, List.singleton_append,
            matchDateAt, h1, h2, h3, h4, h5, Bool.and_self, if_true]
          simp only [matchMonthSep, hmc, hs2, isSep_not_digit hs2, Bool.and_false,
            Bool.false_and, Bool.and_true, Bool.true_and, if_false, if_true,
            Bool.and_self]
          rcases hde : matchDayEnd (d1 :: d2 :: rest) with _ | ⟨d, r3⟩
          · have := matchDayEnd_isSome hd1 (d2 :: rest)
            rw [hde] at this
            simp at this
          · simp [hde]
    · rcases tail with _ | ⟨m1, _ | ⟨m2, _ | ⟨s2, dtail⟩⟩⟩
      · simp at h6
      · simp at h6
      · simp at h6
      · simp only [Bool.and_eq_true] at h6
        obtain ⟨⟨⟨hm1, hm2⟩, hs2⟩, hdt⟩ := h6
        rcases specDayTail_shape hdt with ⟨d1, rfl, hd1⟩ | ⟨d1, d2, rfl, hd1, hd2⟩
        · simp only [List.cons_append, List.append_assoc, List.singleton_append,
            matchDateAt, h1, h2, h3, h4, h5, Bool.and_self, if_true]
          simp only [matchMonthSep, hm1, hm2, hs2, Bool.and_true, Bool.true_and,
            if_true, Bool.and_self]
          rcases hde : matchDayEnd (d1 :: rest) with _ | ⟨d, r3⟩
          · have := matchDayEnd_isSome hd1 rest
            rw [hde] at this
            simp at this
          · simp [hde]
        · simp only [List.cons_append, List.append_assoc, List.singleton_append,
            matchDateAt, h1, h2, h3, h4, h5, Bool.and_self, if_true]
          simp only [matchMonthSep, hm1, hm2, hs2, Bool.and_true, Bool.true_and,
            if_true, Bool.and_self]
          rcases hde : matchDayEnd (d1 :: d2 :: rest) with _ | ⟨d, r3⟩
          · have := matchDayEnd_isSome hd1 (d2 :: rest)
            rw [hde] at this
            simp at this
          · simp [hde]

/-- A successful amount match consumes a prefix that is a grouped-digit
numeral in the sense of the spec. -/
theorem matchAmountAt_spec {cs r rest : List Char}
    (h : matchAmountAt cs = some (r, rest)) :
    cs = r ++ rest ∧ specAmount r = true := by
  rcases cs with _ | ⟨a, _ | ⟨b, _ | ⟨c, rest3⟩⟩⟩
  · simp [matchAmountAt] at h
  · simp only [matchAmountAt] at h
    split_ifs at h with ha
    simp only [Option.some.injEq, Prod.mk.injEq] at h
    obtain ⟨hr, hrest⟩ := h
    subst hr; subst hrest
    exact ⟨by simp, by simp [specAmount, specGroups, ha]⟩
  · simp only [matchAmountAt, matchGroups] at h
    split_ifs at h with ha hb
    · simp only [Option.some.injEq, Prod.mk.injEq] at h
      obtain ⟨hr, hrest⟩ := h
      subst hr; subst hrest
      exact ⟨by simp, by simp [specAmount, specGroups, ha, hb]⟩
    · simp only [Option.some.injEq, Prod.mk.injEq] at h
      obtain ⟨hr, hrest⟩ := h
      subst hr; subst hrest
      exact ⟨by simp, by simp [specAmount, specGroups, ha]⟩
  · rcases hg1 : matchGroups rest3 with ⟨g1, r1⟩
    rcases hg2 : matchGroups (c :: rest3) with ⟨g2, r2⟩
    rcases hg3 : matchGroups (b :: c :: rest3) with ⟨g3, r3⟩
    have hap1 := matchGroups_append rest3
    have hsp1 := matchGroups_spec rest3
    have hap2 := matchGroups_append (c :: rest3)
    have hsp2 := matchGroups_spec (c :: rest3)
    have hap3 := matchGroups_append (b :: c :: rest3)
    have hsp3 := matchGroups_spec (b :: c :: rest3)
    rw [hg1] at hap1 hsp1
    rw [hg2] at hap2 hsp2
    rw [hg3] at hap3 hsp3
    simp only at hap1 hsp1 hap2 hsp2 hap3 hsp3
    simp only [matchAmountAt, hg1, hg2, hg3] at h
    split_ifs at h with ha hb hc
    · simp only [Option.some.injEq, Prod.mk.injEq] at h
      obtain ⟨hr, hrest⟩ := h
      subst hr; subst hrest
      constructor
      · rw [← hap1]; simp
      · simp [specAmount, ha, hb, hc, hsp1]
    · simp only [Option.some.injEq, Prod.mk.injEq] at h
      obtain ⟨hr, hrest⟩ := h
      subst hr; subst hrest
      constructor
      · rw [← hap2]; simp
      · simp [specAmount, ha, hb, hsp2]
    · simp only [Option.some.injEq, Prod.mk.injEq] at h
      obtain ⟨hr, hrest⟩ := h
      subst hr; subst hrest
      constructor
      · rw [← hap3]; simp
      · simp [specAmount, ha, hsp3]

/-- The amount matcher succeeds on any input starting with a digit. -/
theorem matchAmountAt_isSome {a : Char} (ha : a.isDigit = true) (xs : List Char) :
    (matchAmountAt (a :: xs)).isSome = true := by
  rcases xs with _ | ⟨b, _ | ⟨c, rest3⟩⟩
  · simp [matchAmountAt, ha]
  · rcases hg : matchGroups [b] with ⟨g, r⟩
    simp only [matchAmountAt, hg, ha]
    split_ifs <;> simp
  · rcases hg1 : matchGroups rest3 with ⟨g1, r1⟩
    rcases hg2 : matchGroups (c :: rest3) with ⟨g2, r2⟩
    rcases hg3 : matchGroups (b :: c :: rest3) with ⟨g3, r3⟩
    simp only [matchAmountAt, hg1, hg2, hg3, ha]
    split_ifs <;> simp

/-- An amount-grammar match starts with a digit. -/
theorem specAmount_head {r : List Char} (h : specAmount r = true) :
    ∃ a tl, r = a :: tl ∧ a.isDigit = true := by
  rcases r with _ | ⟨a, tl⟩
  · simp [specAmount] at h
  · refine ⟨a, tl, rfl, ?_⟩
    simp only [specAmount, Bool.or_eq_true, Bool.and_eq_true] at h
    rcases h with (h | h) | h
    · exact h.1
    · rcases tl with _ | ⟨b, tl2⟩
      · simp at h
      · simp only [Bool.and_eq_true] at h
        exact h.1.1
    · rcases tl with _ | ⟨b, _ | ⟨c, tl3⟩⟩
      · simp at h
      · simp at h
      · simp only [Bool.and_eq_true] at h
        exact h.1.1.1

/-- If a prefix of the input is an amount-grammar match, the amount matcher
succeeds on the input. -/
theorem matchAmountAt_isSome_of_spec {r : List Char} (h : specAmount r = true)
    (rest : List Char) : (matchAmountAt (r ++ rest)).isSome = true := by
  obtain ⟨a, tl, rfl, ha⟩ := specAmount_head h
  simpa using matchAmountAt_isSome ha (tl ++ rest)

/-- The position check holds exactly when a grammar match starts at this
position. -/
theorem specAt_iff (p : List Char → Bool) (cs : List Char) :
    (List.range (cs.length + 1)).any (fun k => p (cs.take k)) = true ↔
      ∃ r rest, cs = r ++ rest ∧ p r = true := by
  constructor
  · intro h
    simp only [List.any_eq_true, List.mem_range] at h
    obtain ⟨k, _, hspec⟩ := h
    exact ⟨cs.take k, cs.drop k, (List.take_append_drop k cs).symm, hspec⟩
  · rintro ⟨r, rest, rfl, hspec⟩
    simp only [List.any_eq_true, List.mem_range]
    refine ⟨r.length, ?_, ?_⟩
    · simp only [List.length_append]
      omega
    · simpa [List.take_left] using hspec

/-- The date matcher fails at a position exactly when no date-grammar
substring starts there. -/
theorem matchDateAt_none_iff {cs : List Char} :
    matchDateAt cs = none ↔ specDateAt cs = false := by
  constructor
  · intro h
    rcases hb : specDateAt cs with _ | _
    · rfl
    · obtain ⟨r, rest, hcs, hspec⟩ := (specAt_iff specDate cs).mp hb
      subst hcs
      have := matchDateAt_isSome_of_spec hspec rest
      rw [h] at this
      simp at this
  · intro h
    rcases hm : matchDateAt cs with _ | ⟨r2, rest2⟩
    · rfl
    · obtain ⟨happ, hspec⟩ := matchDateAt_spec hm
      have : specDateAt cs = true := (specAt_iff specDate cs).mpr ⟨r2, rest2, happ, hspec⟩
      rw [this] at h
      cases h

/-- The amount matcher fails at a position exactly when no amount-grammar
substring starts there. -/
theorem matchAmountAt_none_iff {cs : List Char} :
    matchAmountAt cs = none ↔ specAmountAt cs = false := by
  constructor
  · intro h
    rcases hb : specAmountAt cs with _ | _
    · rfl
    · obtain ⟨r, rest, hcs, hspec⟩ := (specAt_iff specAmount cs).mp hb
      subst hcs
      have := matchAmountAt_isSome_of_spec hspec rest
      rw [h] at this
      simp at this
  · intro h
    rcases hm : matchAmountAt cs with _ | ⟨r2, rest2⟩
    · rfl
    · obtain ⟨happ, hspec⟩ := matchAmountAt_spec hm
      have : specAmountAt cs = true := (specAt_iff specAmount cs).mpr ⟨r2, rest2, happ, hspec⟩
      rw [this] at h
      cases h

/-- A successful search is a successful match at some position. -/
theorem reSearch_some_inv (m : List Char → Option (List Char × List Char)) :
    ∀ cs r, reSearch m cs = some r → ∃ i p, m (cs.drop i) = some p ∧ p.1 = r := by
  intro cs
  induction cs with
  | nil =>
    intro r h
    simp only [reSearch] at h
    rcases hm : m [] with _ | p
    · rw [hm] at h; simp at h
    · rw [hm] at h
      simp only [Option.map_some'] at h
      exact ⟨0, p, by simpa using hm, by simpa using h⟩
  | cons c rest ih =>
    intro r h
    simp only [reSearch] at h
    rcases hm : m (c :: rest) with _ | p
    · rw [hm] at h
      simp only at h
      obtain ⟨i, p, hp, hr⟩ := ih r h
      exact ⟨i + 1, p, by simpa using hp, hr⟩
    · rw [hm] at h
      simp only [Option.some.injEq] at h
      exact ⟨0, p, by simpa using hm, h⟩

/-- Right identity of string concatenation. -/
theorem string_append_empty (s : String) : s ++ "" = s := by
  apply String.ext
  simp [String.data_append]

/-- Associativity of string concatenation. -/
theorem string_append_assoc (a b c : String) : a ++ b ++ c = a ++ (b ++ c) := by
  apply String.ext
  simp [String.data_append]

/-- Spec-side description of what the extractor actually returns (the
amended form of the extraction-failure claim): the concatenation of the
non-empty page texts read before the first reader failure, each followed
by a newline; empty as soon as the failure precedes any page text. -/
def prefixTextNL : List PageRead → String
  | [] => ""
  | .ok t :: rest => if t = "" then prefixTextNL rest else t ++ "\n" ++ prefixTextNL rest
  | .err :: _ => ""

/-- The extraction loop appends exactly the pre-failure page texts to its
accumulator. -/
theorem extractLoop_eq (ps : List PageRead) :
    ∀ acc, extractLoop acc ps = acc ++ prefixTextNL ps := by
  induction ps with
  | nil => intro acc; simp [extractLoop, prefixTextNL, string_append_empty]
  | cons p rest ih =>
    intro acc
    cases p with
    | ok t =>
      by_cases ht : t = ""
      · subst ht
        simp [extractLoop, prefixTextNL, ih]
      · simp [extractLoop, prefixTextNL, ht, ih, string_append_assoc]
    | err => simp [extractLoop, prefixTextNL, string_append_empty]

/-- A date-grammar substring starts at a position exactly when the position
check holds. -/
theorem specDateAt_iff (cs : List Char) :
    specDateAt cs = true ↔ ∃ r rest, cs = r ++ rest ∧ specDate r = true := by
  unfold specDateAt
  exact specAt_iff specDate cs

/-- An amount-grammar substring starts at a position exactly when the
position check holds. -/
theorem specAmountAt_iff (cs : List Char) :
    specAmountAt cs = true ↔ ∃ r rest, cs = r ++ rest ∧ specAmount r = true := by
  unfold specAmountAt
  exact specAt_iff specAmount cs

/-- C5: for every combination of parsed field values, the produced row has
exactly the published column count, which is 44, regardless of how many
fields were inferred. -/
theorem row_length_eq_schema (date amount partner : String) :
    (build_csv_row date amount partner).length = CSV_COLUMNS.length ∧
    CSV_COLUMNS.length = 44 := by
  constructor
  · simp [build_csv_row]
  · rfl

/-- C9: the field-inference and row-construction stages are deterministic:
running them (or the whole per-document pipeline step) twice on the same
input yields identical ParsedFields and an identical OutputRow. -/
theorem pipeline_deterministic (t : String) (d : DocSpec) :
    parse_info t = parse_info t ∧
    build_row_from_text t = build_row_from_text t ∧
    process_document d = process_document d :=
  ⟨rfl, rfl, rfl⟩

/-- C6: the row builder writes the parsed date into the transaction-date
cell (index 0) with every dash replaced by a slash and no other change (no
zero-padding): "2024-03-15" yields cell "2024/03/15" and "2024/3/1" is
unchanged. -/
theorem date_cell_normalized (date amount partner : String) :
    (build_csv_row date amount partner)[0]? = some (pyReplaceDash date) ∧
    (pyReplaceDash date).data = date.data.map (fun c => if c = '-' then '/' else c) ∧
    (build_csv_row "2024-03-15" amount partner)[0]? = some "2024/03/15" ∧
    (build_csv_row "2024/3/1" amount partner)[0]? = some "2024/3/1" := by
  have Hd : ∀ d a p : String, (build_csv_row d a p)[0]? = some (pyReplaceDash d) := by
    intro d a p
    by_cases hd : d = ""
    · subst hd
      simp [build_csv_row, CSV_COLUMNS, List.getElem?_set, pyReplaceDash]
    · simp [build_csv_row, CSV_COLUMNS, hd, List.getElem?_set]
  refine ⟨Hd date amount partner, rfl, ?_, ?_⟩
  · rw [Hd]
    decide
  · rw [Hd]
    decide

/-- C8 (failing input): the row builder writes the partner value into index
33, which the published schema labels 取引先コード (counterparty code);
the counterparty-name column 取引先名 is index 34 and stays empty — the
code contradicts its own inline comment and the claim. -/
theorem partner_lands_in_code_column :
    (build_csv_row "2024/01/01" "12345" "ACME")[33]? = some "ACME" ∧
    (build_csv_row "2024/01/01" "12345" "ACME")[34]? = some "" ∧
    CSV_COLUMNS[33]? = some "取引先コード" ∧
    CSV_COLUMNS[34]? = some "取引先名" := by
  decide

/-- Concrete documents for the rasterization-failure scenario: documents 1
and 3 have usable text layers; document 2 is corrupt, so its reader fails
and its rasterization raises. -/
def doc1 : DocSpec :=
  { reader := .pages [.ok "ACME Corp\n2024-03-15\nTotal 12,345"],
    rasterOk := true, ocrText := "" }

def doc2bad : DocSpec :=
  { reader := .openFail, rasterOk := false, ocrText := "" }

def doc3 : DocSpec :=
  { reader := .pages [.ok "Beta LLC\n2024-04-01\nTotal 678"],
    rasterOk := true, ocrText := "" }

/-- C1 (failing input): with the unrasterizable document second in a batch
of three, the uncaught rasterization exception aborts the loop: only
document 1's row is emitted, document 3 contributes no row, and the batch
aborts — whereas the same batch without document 2 yields both rows. -/
theorem batch_aborts_on_raster_failure :
    (process_batch [doc1, doc2bad, doc3]).1.length = 1 ∧
    (process_batch [doc1, doc2bad, doc3]).2 = true ∧
    (process_batch [doc1, doc3]).1.length = 2 ∧
    (process_batch [doc1, doc3]).2 = false := by
  decide

/-- C10 (counterexample): for text whose earliest digit run is the
four-digit year of "2024/03/15", the amount field is "202" — the leading
digit segment of the pattern is capped at three digits — not the full run
"2024" stated by the claim. -/
theorem amount_not_full_leading_run :
    (parse_info "2024/03/15 TOTAL 1,234").2.1 = "202" ∧
    (parse_info "2024/03/15 TOTAL 1,234").2.1 ≠ "2024" := by
  decide

/-- C10 (amended): the amount search has no currency anchoring and is
resolved strictly leftmost, but a digit run longer than three contributes
only its first three digits: with the date first the amount is "202"
rather than the later monetary numeral, and without the earlier run the
monetary numeral itself is parsed. -/
theorem amount_leftmost_capped :
    (parse_info "2024/03/15 TOTAL 1,234").2.1 = "202" ∧
    (parse_info "TOTAL 1,234").2.1 = "1234" := by
  decide

/-- C4 (counterexample): when the reader fails after a successful first
page, the extractor returns the partial text "A\n", not the empty string
required by the claim. -/
theorem extract_mid_failure_partial :
    extract_text_from_pdf (.pages [.ok "A", .err]) = "A\n" ∧
    extract_text_from_pdf (.pages [.ok "A", .err]) ≠ "" := by
  constructor
  · rfl
  · decide

/-- C4 (amended): the extractor never propagates a reader failure (it is a
total function of the reader outcome); it returns the concatenation of the
non-empty page texts read before the failure point, each followed by a
newline — in particular the empty string when the reader fails at open or
before yielding any page text — and the caller falls through to OCR
exactly when that text strips to empty. -/
theorem extract_swallow_and_return_prefix :
    extract_text_from_pdf .openFail = "" ∧
    (∀ ps : List PageRead, extract_text_from_pdf (.pages ps) = prefixTextNL ps) ∧
    extract_text_from_pdf (.pages [.err]) = "" := by
  refine ⟨rfl, ?_, rfl⟩
  intro ps
  show extractLoop "" ps = prefixTextNL ps
  rw [extractLoop_eq ps ""]
  apply String.ext
  simp [String.data_append]

/-- C3: the OCR fallback path (rasterize, preprocess, recognize) is entered
if and only if the directly extracted text is empty after whitespace
trimming; in particular a document whose text layer yields non-empty
trimmed text never reaches OCR. -/
theorem ocr_iff_stripped_empty (d : DocSpec) :
    ((process_document d).1 = true ↔ pyStripS (extract_text_from_pdf d.reader) = "") ∧
    (pyStripS (extract_text_from_pdf d.reader) ≠ "" → (process_document d).1 = false) := by
  have H2 : pyStripS (extract_text_from_pdf d.reader) ≠ "" → (process_document d).1 = false := by
    intro h
    simp [process_document, h]
  constructor
  · constructor
    · intro h
      by_contra hne
      rw [H2 hne] at h
      cases h
    · intro h
      by_cases hr : d.rasterOk = true <;> simp [process_document, h, hr]
  · exact H2

/-- C3 (witness): a document with the non-blank text layer "ACME" does not
take the OCR path. -/
theorem ocr_iff_stripped_empty_w :
    pyStripS (extract_text_from_pdf (ReaderOutcome.pages [.ok "ACME"])) ≠ "" ∧
    (process_document ⟨.pages [.ok "ACME"], true, ""⟩).1 = false :=
  ⟨by decide, (ocr_iff_stripped_empty ⟨.pages [.ok "ACME"], true, ""⟩).2 (by decide)⟩

/-- C7: the parsed date field is the leftmost substring matching the
numeric date pattern (YYYY, separator in {slash, dash}, M(M), separator,
D(D)), taken verbatim with no calendar validation — month 13 is accepted —
and the field is the empty string when no substring matches. -/
theorem date_field_leftmost (t : String) :
    ((∀ i, specDateAt (t.data.drop i) = false) → (parse_info t).1 = "") ∧
    (∀ i, (∀ j, j < i → specDateAt (t.data.drop j) = false) →
      specDateAt (t.data.drop i) = true →
      ∃ r rest, matchDateAt (t.data.drop i) = some (r, rest) ∧
        specDate r = true ∧ t.data.drop i = r ++ rest ∧
        (parse_info t).1 = String.mk r) ∧
    (parse_info "2024/13/05").1 = "2024/13/05" := by
  refine ⟨?_, ?_, by decide⟩
  · intro h
    have hnone : ∀ i, matchDateAt (t.data.drop i) = none := fun i =>
      matchDateAt_none_iff.mpr (h i)
    have hs : reSearch matchDateAt t.data = none :=
      reSearch_eq_none_of matchDateAt t.data hnone
    simp [parse_info, hs]
  · intro i hj hi
    have hmj : ∀ j, j < i → matchDateAt (t.data.drop j) = none := fun j hji =>
      matchDateAt_none_iff.mpr (hj j hji)
    obtain ⟨r0, rest0, hcs, hspec⟩ := (specDateAt_iff (t.data.drop i)).mp hi
    have hsome : (matchDateAt (t.data.drop i)).isSome = true := by
      rw [hcs]
      exact matchDateAt_isSome_of_spec hspec rest0
    rcases hm : matchDateAt (t.data.drop i) with _ | ⟨r, rest⟩
    · rw [hm] at hsome
      cases hsome
    · obtain ⟨happ, hspecr⟩ := matchDateAt_spec hm
      refine ⟨r, rest, rfl, hspecr, happ, ?_⟩
      have hse := reSearch_eq_some_of matchDateAt t.data i (r, rest) hmj hm
      simp [parse_info, hse]

/-- C7 (witness): on "x 2024/13/05" the first date-grammar match starts at
position 2 and the parsed date field is that match. -/
theorem date_field_leftmost_w :
    ∃ r rest, matchDateAt (("x 2024/13/05" : String).data.drop 2) = some (r, rest) ∧
      specDate r = true ∧ ("x 2024/13/05" : String).data.drop 2 = r ++ rest ∧
      (parse_info "x 2024/13/05").1 = String.mk r :=
  (date_field_leftmost "x 2024/13/05").2.1 2 (by decide) (by decide)

/-- C2: the parsed amount field is the leftmost substring matching the
grouped-digit numeral grammar (1 to 3 leading digits, then zero or more
groups of exactly 3 digits each preceded by a comma) with the comma
separators stripped before storage; a text whose first match is "12,345"
yields "12345", one whose first match is "1,234,567" yields "1234567", and
a text with no matching substring yields the empty string, not an error. -/
theorem amount_field_leftmost (t : String) :
    ((∀ i, specAmountAt (t.data.drop i) = false) → (parse_info t).2.1 = "") ∧
    (∀ i, (∀ j, j < i → specAmountAt (t.data.drop j) = false) →
      specAmountAt (t.data.drop i) = true →
      ∃ r rest, matchAmountAt (t.data.drop i) = some (r, rest) ∧
        specAmount r = true ∧ t.data.drop i = r ++ rest ∧
        (parse_info t).2.1 = String.mk (r.filter (fun c => c ≠ ','))) ∧
    (parse_info "Invoice total 12,345 yen").2.1 = "12345" ∧
    (parse_info "Amount: 1,234,567").2.1 = "1234567" ∧
    (parse_info "no numerals here!").2.1 = "" := by
  refine ⟨?_, ?_, by decide, by decide, by decide⟩
  · intro h
    have hnone : ∀ i, matchAmountAt (t.data.drop i) = none := fun i =>
      matchAmountAt_none_iff.mpr (h i)
    have hs : reSearch matchAmountAt t.data = none :=
      reSearch_eq_none_of matchAmountAt t.data hnone
    simp [parse_info, hs]
  · intro i hj hi
    have hmj : ∀ j, j < i → matchAmountAt (t.data.drop j) = none := fun j hji =>
      matchAmountAt_none_iff.mpr (hj j hji)
    obtain ⟨r0, rest0, hcs, hspec⟩ := (specAmountAt_iff (t.data.drop i)).mp hi
    have hsome : (matchAmountAt (t.data.drop i)).isSome = true := by
      rw [hcs]
      exact matchAmountAt_isSome_of_spec hspec rest0
    rcases hm : matchAmountAt (t.data.drop i) with _ | ⟨r, rest⟩
    · rw [hm] at hsome
      cases hsome
    · obtain ⟨happ, hspecr⟩ := matchAmountAt_spec hm
      refine ⟨r, rest, rfl, hspecr, happ, ?_⟩
      have hse := reSearch_eq_some_of matchAmountAt t.data i (r, rest) hmj hm
      simp [parse_info, hse]

/-- C2 (witness): on "Invoice total 12,345 yen" the first amount-grammar
match starts at position 14 and the parsed amount field is that match with
its comma removed. -/
theorem amount_field_leftmost_w :
    ∃ r rest,
      matchAmountAt (("Invoice total 12,345 yen" : String).data.drop 14) = some (r, rest) ∧
      specAmount r = true ∧
      ("Invoice total 12,345 yen" : String).data.drop 14 = r ++ rest ∧
      (parse_info "Invoice total 12,345 yen").2.1 = String.mk (r.filter (fun c => c ≠ ',')) :=
  (amount_field_leftmost "Invoice total 12,345 yen").2.1 14 (by decide) (by decide)

end InvoicePipeline
